import Mathlib

/-!
Verification of the baby-bliss-bot Bliss engine core
(`src/bliss_engine/symbol_classifier.py`, `composer.py`, `analyzer.py`).

The Python code is shallowly embedded: dictionaries become association
lists (`List (String × _)`), preserving insertion/iteration order;
`dict` access `d[k]` / `k in d` becomes `alistGet` / `(alistGet _).isSome`;
mutation of the Python result dicts becomes explicit record updates
threaded through structural recursions that mirror the source loops.
-/

namespace BlissBot

/-- One `{type, value}`-style entry inside an `"or"` / `"and"` list of a
semantic table entry.  Both keys may be absent in the loosely-typed source
(`alt.get("type")`, `alt.get("value")`). -/
structure TypeValue where
  tyKey : Option String
  valKey : Option String
deriving DecidableEq, Repr

/-- One entry of `MODIFIER_SEMANTICS` / `INDICATOR_SEMANTICS`: a loosely
typed dict which may carry the keys `"or"`, `"and"`, `"type"`, `"value"`.
Each field models the presence/absence of the corresponding key. -/
structure SemanticInfo where
  orAlternatives : Option (List TypeValue)
  andCombination : Option (List TypeValue)
  typeKey : Option String
  valueKey : Option String
deriving DecidableEq, Repr

/-- One record of the Bliss dictionary (`bliss_dict[node_id]`).
`pos` models `node.get("pos", "")`, `isCharacter` models
`node.get("isCharacter", False)`, `glosses` is the per-language gloss map
(`node.get("glosses", {})`), iteration order preserved. -/
structure SymbolRecord where
  pos : String
  isCharacter : Bool
  glosses : List (String × List String)
  explanation : String
deriving DecidableEq, Repr

/-- The Bliss dictionary: symbol id → record, in insertion order
(Python dicts iterate in insertion order). -/
abbrev BlissDict := List (String × SymbolRecord)

/-- Association-list lookup: model of Python `d[k]` / `d.get(k)` /
`k in d` (keys of a Python dict are unique, so first match = the match). -/
def alistGet {α : Type} : List (String × α) → String → Option α
  | [], _ => none
  | (k, v) :: rest, key => if k = key then some v else alistGet rest key

/-- Model of `k in d`. -/
def alistHasKey {α : Type} (l : List (String × α)) (key : String) : Bool :=
  (alistGet l key).isSome

/-- The engine context: the dictionary plus the two fixed semantic tables
`MODIFIER_SEMANTICS` and `INDICATOR_SEMANTICS` imported by the modules. -/
structure EngineCtx where
  blissDict : BlissDict
  MODIFIER_SEMANTICS : List (String × SemanticInfo)
  INDICATOR_SEMANTICS : List (String × SemanticInfo)
deriving DecidableEq, Repr

/-- `SymbolClassifier.CLASSIFIER_POS = {"YELLOW", "RED", "GREEN", "BLUE"}`. -/
def CLASSIFIER_POS : List String := ["YELLOW", "RED", "GREEN", "BLUE"]

/-- `SymbolClassifier.MODIFIER_POS = {"GREY", "WHITE"}`. -/
def MODIFIER_POS : List String := ["GREY", "WHITE"]

/-- `SymbolClassifier.is_classifier`: the symbol is in the dictionary and
its `pos` is one of the head-bearing colours. -/
def is_classifier (ctx : EngineCtx) (symbol_id : String) : Bool :=
  match alistGet ctx.blissDict symbol_id with
  | none => false
  | some node => CLASSIFIER_POS.contains node.pos

/-- `SymbolClassifier.is_modifier`: membership in `MODIFIER_SEMANTICS` keys. -/
def is_modifier (ctx : EngineCtx) (symbol_id : String) : Bool :=
  alistHasKey ctx.MODIFIER_SEMANTICS symbol_id

/-- `SymbolClassifier.is_indicator`: membership in `INDICATOR_SEMANTICS` keys. -/
def is_indicator (ctx : EngineCtx) (symbol_id : String) : Bool :=
  alistHasKey ctx.INDICATOR_SEMANTICS symbol_id

/-- Python `str.isdigit()` on the (ASCII) symbol-id strings: non-empty and
all characters are digits (stated over the character list so that it
evaluates by kernel reduction). -/
def isDigitStr (s : String) : Bool :=
  !s.data.isEmpty && s.data.all Char.isDigit

/-- The result dict of `classify_composition`. -/
structure RoleAssignment where
  classifier : Option String
  specifiers : List String
  indicators : List String
  modifiers : List String
  errors : List String
deriving DecidableEq, Repr

/-- The empty result `classify_composition` starts from. -/
def emptyRoles : RoleAssignment := ⟨none, [], [], [], []⟩

/-- The `for i, symbol_id in enumerate(valid_ids): if is_indicator: break`
scan: index of the first indicator, if any. -/
def firstIndicatorIdx (ctx : EngineCtx) : List String → Option Nat
  | [] => none
  | sid :: rest =>
    if is_indicator ctx sid then some 0
    else (firstIndicatorIdx ctx rest).map (· + 1)

/-- Rule 1 suffix loop (`for i in range(first_indicator_idx, len(valid_ids))`):
indicators to `indicators`, modifiers to `modifiers` (suffixes), the rest to
`specifiers`, appended in order. -/
def rule1Suffix (ctx : EngineCtx) : List String → RoleAssignment → RoleAssignment
  | [], r => r
  | sid :: rest, r =>
    if is_indicator ctx sid then
      rule1Suffix ctx rest { r with indicators := r.indicators ++ [sid] }
    else if is_modifier ctx sid then
      rule1Suffix ctx rest { r with modifiers := r.modifiers ++ [sid] }
    else
      rule1Suffix ctx rest { r with specifiers := r.specifiers ++ [sid] }

/-- Rule 2 loop (`for i, symbol_id in enumerate(valid_ids)` with the
`has_classifier` flag): modifiers to `modifiers`; the first head-bearing
symbol becomes the classifier, later ones become specifiers; everything
else defaults to `specifiers`.  Returns the updated result together with
the final `has_classifier` flag. -/
def posLoop (ctx : EngineCtx) : List String → Bool → RoleAssignment →
    RoleAssignment × Bool
  | [], has, r => (r, has)
  | sid :: rest, has, r =>
    if is_modifier ctx sid then
      posLoop ctx rest has { r with modifiers := r.modifiers ++ [sid] }
    else if is_classifier ctx sid then
      if has then
        posLoop ctx rest has { r with specifiers := r.specifiers ++ [sid] }
      else
        posLoop ctx rest true { r with classifier := some sid }
    else
      posLoop ctx rest has { r with specifiers := r.specifiers ++ [sid] }

/-- Rule 3 (`if not has_classifier and valid_ids:`): when the POS walk set
no classifier, promote the first id to classifier if it is a dictionary
satellite (grey/white) — removing it from `specifiers` — else record the
appropriate error. -/
def rule3Post (ctx : EngineCtx) (valid_ids : List String)
    (p : RoleAssignment × Bool) : RoleAssignment :=
  let r := p.1
  if p.2 then r
  else
    match valid_ids with
    | [] => r
    | first :: _ =>
      match alistGet ctx.blissDict first with
      | some node =>
        if MODIFIER_POS.contains node.pos then
          { r with
              classifier := some first
              specifiers := r.specifiers.filter (fun s => s != first) }
        else
          { r with errors := r.errors ++ ["No classifier found in composition"] }
      | none =>
        { r with
            errors := r.errors ++
              ["Symbol " ++ first ++ " not found in knowledge graph"] }

/-- `SymbolClassifier.classify_composition`.  Filters the input down to
numeric ids, then applies the three priority rules of the source. -/
def classify_composition (ctx : EngineCtx) (symbol_ids : List String) :
    RoleAssignment :=
  let valid_ids := symbol_ids.filter isDigitStr
  if valid_ids.isEmpty then
    { emptyRoles with errors := ["No valid symbol IDs found in composition"] }
  else
    match firstIndicatorIdx ctx valid_ids with
    | some i =>
      if 0 < i then
        rule1Suffix ctx (valid_ids.drop i)
          { classifier := valid_ids[i - 1]?
            specifiers := []
            indicators := []
            modifiers := valid_ids.take (i - 1)
            errors := [] }
      else
        { emptyRoles with
            errors := ["First symbol is an indicator; no classifier found before it"] }
    | none =>
      rule3Post ctx valid_ids (posLoop ctx valid_ids false emptyRoles)

/-! ## Composer (`composer.py`) -/

/-- The result dict of `BlissComposer.compose_with_modifiers`: the keys
`composition`, `errors`, `warnings` set up at entry, plus the `error` key
added (as `some _`) on the fatal missing-classifier path. -/
structure ComposeResult where
  composition : List String
  errors : List String
  warnings : List String
  fatalError : Option String
deriving DecidableEq, Repr

/-- One of the three identical checked-append loops of
`compose_with_modifiers`: ids present in the dictionary are appended to the
composition, absent ones produce a `"<kind> <id> not found"` warning. -/
def addChecked (d : BlissDict) (kind : String) : List String → ComposeResult →
    ComposeResult
  | [], r => r
  | sid :: rest, r =>
    if alistHasKey d sid then
      addChecked d kind rest { r with composition := r.composition ++ [sid] }
    else
      addChecked d kind rest
        { r with warnings := r.warnings ++ [kind ++ " " ++ sid ++ " not found"] }

/-- `BlissComposer.compose_with_modifiers`: modifiers first (prefixes),
then the classifier (fatal `error` if absent from the dictionary), then
specifiers, then indicators (suffixes). -/
def compose_with_modifiers (d : BlissDict) (classifier_id : String)
    (specifier_ids modifier_ids indicator_ids : List String) : ComposeResult :=
  let r0 : ComposeResult := ⟨[], [], [], none⟩
  let r1 := addChecked d "Modifier" modifier_ids r0
  if alistHasKey d classifier_id then
    let r2 := { r1 with composition := r1.composition ++ [classifier_id] }
    let r3 := addChecked d "Specifier" specifier_ids r2
    addChecked d "Indicator" indicator_ids r3
  else
    { r1 with fatalError := some ("Classifier " ++ classifier_id ++ " not found") }

/-- The gloss reverse index built by `_build_reverse_lookups`, as a map. -/
abbrev GlossMap := String → Option String

/-- Python dict assignment `m[gloss] = node_id`. -/
def mapInsert (m : GlossMap) (gloss node_id : String) : GlossMap :=
  fun g => if g = gloss then some node_id else m g

/-- `self.bliss_dict[existing_id].get("isCharacter", False)` (a missing id
would be a `KeyError` in Python; it cannot occur because only indexed ids
are looked up — modelled as the `.get` default). -/
def isCharacterOf (d : BlissDict) (sid : String) : Bool :=
  match alistGet d sid with
  | some node => node.isCharacter
  | none => false

/-- `node.get("glosses", {}).get("en", [])`. -/
def enGlosses (node : SymbolRecord) : List String :=
  (alistGet node.glosses "en").getD []

/-- The per-node gloss-indexing step of `_build_reverse_lookups`: for each
English gloss, first writer wins unless the new symbol is a character and
the incumbent is not, in which case the character displaces it. -/
def glossInsert (d : BlissDict) (node_id : String) (node : SymbolRecord)
    (m : GlossMap) : GlossMap :=
  (enGlosses node).foldl
    (fun m gloss =>
      match m gloss with
      | none => mapInsert m gloss node_id
      | some existing_id =>
        if node.isCharacter && !isCharacterOf d existing_id then
          mapInsert m gloss node_id
        else m)
    m

/-- The `gloss_to_id` index: `_build_reverse_lookups` iterating the
dictionary in insertion order. -/
def gloss_to_id (d : BlissDict) : GlossMap :=
  d.foldl (fun m p => glossInsert d p.1 p.2 m) (fun _ => none)

/-- Case-insensitive single-node gloss scan of the
`_find_symbol_by_gloss` fallback: some gloss in some language equals the
(lowercased) query, compared lowercased. -/
def nodeGlossMatch (glossLower : String) (node : SymbolRecord) : Bool :=
  node.glosses.any (fun lg => lg.2.any (fun g => g.toLower = glossLower))

/-- `BlissComposer._find_symbol_by_gloss`: exact match in the gloss index,
else the first dictionary node (in iteration order) with a case-insensitive
gloss match in any language. -/
def find_symbol_by_gloss (d : BlissDict) (gloss : String) : Option String :=
  match gloss_to_id d gloss with
  | some sid => some sid
  | none => (d.find? (fun p => nodeGlossMatch gloss.toLower p.2)).map Prod.fst

/-! ## Analyzer (`analyzer.py`) -/

/-- The result of `BlissAnalyzer._get_symbol_glosses`: either the
`{"id", "error": "not found"}` dict or the full info dict whose `gloss` is
`glosses.get(language, glosses.get("en", ["(unknown)"]))`. -/
inductive GlossInfo where
  | notFound (id : String)
  | found (id : String) (gloss : List String) (isCharacter : Bool)
deriving DecidableEq, Repr

/-- `BlissAnalyzer._get_symbol_glosses`. -/
def get_symbol_glosses_of (d : BlissDict) (symbol_id language : String) :
    GlossInfo :=
  match alistGet d symbol_id with
  | none => .notFound symbol_id
  | some node =>
    .found symbol_id
      ((alistGet node.glosses language).getD
        ((alistGet node.glosses "en").getD ["(unknown)"]))
      node.isCharacter

/-- The dict returned by `BlissAnalyzer._extract_semantics`: one of the
three shapes (`alternatives` for `"or"`, `combined` for `"and"`, or the
simple `{symbol_type: {type: value}}` entry). -/
inductive SemanticFact where
  | alternatives (symbol_id symbol_type : String) (alts : List TypeValue)
  | combined (symbol_id symbol_type : String) (parts : List TypeValue)
  | simple (symbol_id symbol_type : String) (semType semValue : String)
deriving DecidableEq, Repr

/-- The source symbol id a semantic fact is tagged with. -/
def SemanticFact.srcId : SemanticFact → String
  | .alternatives sid _ _ => sid
  | .combined sid _ _ => sid
  | .simple sid _ _ _ => sid

/-- `BlissAnalyzer._extract_semantics`: look the id up in the table chosen
by the role, then try the `"or"` shape, the `"and"` shape, and the simple
`"type"`/`"value"` shape in that order; `none` when the entry is absent or
matches no shape. -/
def extract_semantics (ctx : EngineCtx) (symbol_id symbol_type : String) :
    Option SemanticFact :=
  let semantics_map :=
    if symbol_type = "indicator" then ctx.INDICATOR_SEMANTICS
    else ctx.MODIFIER_SEMANTICS
  match alistGet semantics_map symbol_id with
  | none => none
  | some info =>
    match info.orAlternatives with
    | some alts => some (.alternatives symbol_id symbol_type alts)
    | none =>
      match info.andCombination with
      | some parts => some (.combined symbol_id symbol_type parts)
      | none =>
        match info.typeKey, info.valueKey with
        | some ty, some v => some (.simple symbol_id symbol_type ty v)
        | _, _ => none

/-- The success-shape result dict of `BlissAnalyzer.analyze_composition`. -/
structure Analysis where
  original_composition : List String
  classifier : Option String
  classifier_info : Option GlossInfo
  specifiers : List String
  specifier_info : List GlossInfo
  semantics : List SemanticFact
  indicators : List String
  modifiers : List String
deriving DecidableEq, Repr

/-- `analyze_composition` returns either the `{"error": ..., "details": ...}`
dict (when classification produced any error) or the full analysis dict. -/
inductive AnalysisOutcome where
  | failure (error : String) (details : RoleAssignment)
  | success (a : Analysis)
deriving DecidableEq, Repr

/-- `BlissAnalyzer.analyze_composition`.  On classification errors, returns
only the first error with the classification as details.  Otherwise fills
classifier/specifier info, and collects semantic facts for every indicator
then every modifier (skipping those whose extraction returns nothing).
The `if classification["classifier"]:` truthiness test is false for `None`
and for the empty string. -/
def analyze_composition (ctx : EngineCtx) (composition : List String)
    (language : String) : AnalysisOutcome :=
  let classification := classify_composition ctx composition
  match classification.errors with
  | e :: _ => .failure e classification
  | [] =>
    let cls : Option String :=
      match classification.classifier with
      | some c => if c = "" then none else some c
      | none => none
    .success
      { original_composition := composition
        classifier := cls
        classifier_info := cls.map (fun c => get_symbol_glosses_of ctx.blissDict c language)
        specifiers := classification.specifiers
        specifier_info :=
          classification.specifiers.map
            (fun s => get_symbol_glosses_of ctx.blissDict s language)
        semantics :=
          classification.indicators.filterMap
            (fun i => extract_semantics ctx i "indicator") ++
          classification.modifiers.filterMap
            (fun m => extract_semantics ctx m "modifier")
        indicators := classification.indicators
        modifiers := classification.modifiers }

/-! ## The concrete §8 dictionary and semantic tables -/

/-- The concrete dictionary of the §8 scenario of the spec (also the test
fixture of the repository): `14905` building (head, character), `24920` medicine (head,
character), `14647` many (satellite), `9011` plural (satellite). -/
def dict8 : BlissDict :=
  [ ("14905", ⟨"YELLOW", true, [("en", ["building"]), ("sv", ["byggnad"])], "A structure"⟩)
  , ("24920", ⟨"BLUE", true, [("en", ["medicine"])], ""⟩)
  , ("14647", ⟨"WHITE", false, [("en", ["many"])], ""⟩)
  , ("9011", ⟨"WHITE", false, [("en", ["plural"])], ""⟩) ]

/-- Modelled from the spec: the repository file `src/data/bliss_semantics.py`
(the `MODIFIER_SEMANTICS` table) is not among the provided sources; §8
states that `14647` carries modifier semantics `QUANTIFIER:many`. -/
def MODIFIER_SEMANTICS8 : List (String × SemanticInfo) :=
  [("14647", ⟨none, none, some "QUANTIFIER", some "many"⟩)]

/-- Modelled from the spec: the repository file `src/data/bliss_semantics.py`
(the `INDICATOR_SEMANTICS` table) is not among the provided sources; §8
states that `9011` carries indicator semantics `NUMBER:plural`. -/
def INDICATOR_SEMANTICS8 : List (String × SemanticInfo) :=
  [("9011", ⟨none, none, some "NUMBER", some "plural"⟩)]

/-- The engine context of the §8 concrete scenario. -/
def ctx8 : EngineCtx := ⟨dict8, MODIFIER_SEMANTICS8, INDICATOR_SEMANTICS8⟩

/-- A context whose single symbol `77` is a grey dictionary satellite that
is also a `MODIFIER_SEMANTICS` key: rule 3 then promotes it to classifier
while it stays in `modifiers`. -/
def ctxC3 : EngineCtx :=
  ⟨[("77", ⟨"GREY", false, [("en", ["seventyseven"])], ""⟩)],
   [("77", ⟨none, none, some "X", some "x"⟩)],
   []⟩

/-- A context for the semantic-extraction edge case: the id `7` has an
`INDICATOR_SEMANTICS` entry carrying only a `"type"` key (no `"or"`, no
`"and"`, no `"value"`), which matches none of the three expected shapes. -/
def ctxC10 : EngineCtx :=
  ⟨[("5", ⟨"YELLOW", true, [("en", ["five"])], ""⟩),
    ("7", ⟨"WHITE", false, [("en", ["seven"])], ""⟩)],
   [],
   [("7", ⟨none, none, some "X", none⟩)]⟩

/-- A dictionary in which the composed word `100` and the character `200`
share the English gloss `water`, the composed word indexed first. -/
def dictC8 : BlissDict :=
  [ ("100", ⟨"YELLOW", false, [("en", ["water"])], ""⟩)
  , ("200", ⟨"BLUE", true, [("en", ["water"])], ""⟩) ]

/-! ## Derived notions used in the statements -/

section Defs

variable (ctx : EngineCtx)

/-- Predicate for rule 1 suffix symbols that land in `indicators`. -/
def sufInd (sid : String) : Bool := is_indicator ctx sid

/-- Predicate for rule 1 suffix symbols that land in `modifiers`. -/
def sufMod (sid : String) : Bool := !is_indicator ctx sid && is_modifier ctx sid

/-- Predicate for rule 1 suffix symbols that land in `specifiers`. -/
def sufSpec (sid : String) : Bool := !is_indicator ctx sid && !is_modifier ctx sid

/-- All ids placed into a role bucket, the classifier first. -/
def roleCat (r : RoleAssignment) : List String :=
  r.classifier.toList ++ r.modifiers ++ r.indicators ++ r.specifiers

/-- Detects the run where rule 3 promotes to classifier a first id that is
also a `MODIFIER_SEMANTICS` member (in that run the id is placed in
`classifier` and stays in `modifiers`): no indicator occurs, the POS walk
finds no classifier, and the first id is a dictionary satellite that is a
modifier. -/
def rule3PromotesModifier (V : List String) : Bool :=
  (firstIndicatorIdx ctx V).isNone &&
  !(posLoop ctx V false emptyRoles).2 &&
  (V.head?.any (fun h =>
    is_modifier ctx h &&
    (match alistGet ctx.blissDict h with
     | some node => MODIFIER_POS.contains node.pos
     | none => false)))

end Defs

/-- A semantic-table entry that matches none of the three shapes
`_extract_semantics` recognises: no `"or"` key, no `"and"` key, and not
both `"type"` and `"value"` keys. -/
def badShape (info : SemanticInfo) : Bool :=
  info.orAlternatives.isNone && info.andCombination.isNone &&
    !(info.typeKey.isSome && info.valueKey.isSome)

/-- One displacement step of the gloss index at a single gloss: the value
the `_build_reverse_lookups` collision rule leaves for that gloss, given
the incumbent. -/
def glossStepVal (d : BlissDict) (node_id : String) (node : SymbolRecord) :
    Option String → Option String
  | none => some node_id
  | some existing_id =>
    if node.isCharacter && !isCharacterOf d existing_id then some node_id
    else some existing_id

/-! ## Characterization lemmas -/

section Lemmas

variable (ctx : EngineCtx)

theorem rule1Suffix_eq (ids : List String) (r : RoleAssignment) :
    rule1Suffix ctx ids r =
      { r with
          indicators := r.indicators ++ ids.filter (sufInd ctx)
          modifiers := r.modifiers ++ ids.filter (sufMod ctx)
          specifiers := r.specifiers ++ ids.filter (sufSpec ctx) } := by
  induction ids generalizing r with
  | nil => simp [rule1Suffix]
  | cons sid rest ih =>
    by_cases hi : is_indicator ctx sid
    · simp [rule1Suffix, hi, ih, List.filter, sufInd, sufMod, sufSpec]
    · by_cases hm : is_modifier ctx sid
      · simp [rule1Suffix, hi, hm, ih, List.filter, sufInd, sufMod, sufSpec]
      · simp [rule1Suffix, hi, hm, ih, List.filter, sufInd, sufMod, sufSpec]

theorem posLoop_indicators (ids : List String) (has : Bool) (r : RoleAssignment) :
    (posLoop ctx ids has r).1.indicators = r.indicators := by
  induction ids generalizing has r with
  | nil => simp [posLoop]
  | cons sid rest ih =>
    by_cases hm : is_modifier ctx sid
    · simp [posLoop, hm, ih]
    · by_cases hc : is_classifier ctx sid
      · cases has <;> simp [posLoop, hm, hc, ih]
      · simp [posLoop, hm, hc, ih]

theorem posLoop_errors (ids : List String) (has : Bool) (r : RoleAssignment) :
    (posLoop ctx ids has r).1.errors = r.errors := by
  induction ids generalizing has r with
  | nil => simp [posLoop]
  | cons sid rest ih =>
    by_cases hm : is_modifier ctx sid
    · simp [posLoop, hm, ih]
    · by_cases hc : is_classifier ctx sid
      · cases has <;> simp [posLoop, hm, hc, ih]
      · simp [posLoop, hm, hc, ih]

theorem posLoop_snd_true (ids : List String) (r : RoleAssignment) :
    (posLoop ctx ids true r).2 = true := by
  induction ids generalizing r with
  | nil => simp [posLoop]
  | cons sid rest ih =>
    by_cases hm : is_modifier ctx sid
    · simp [posLoop, hm, ih]
    · by_cases hc : is_classifier ctx sid
      · simp [posLoop, hm, hc, ih]
      · simp [posLoop, hm, hc, ih]

theorem posLoop_classifier_of_snd_false (ids : List String) (has : Bool)
    (r : RoleAssignment) (h : (posLoop ctx ids has r).2 = false) :
    (posLoop ctx ids has r).1.classifier = r.classifier := by
  induction ids generalizing has r with
  | nil => simp [posLoop]
  | cons sid rest ih =>
    by_cases hm : is_modifier ctx sid
    · simp only [posLoop, hm, if_pos] at h ⊢
      exact ih _ _ h
    · by_cases hc : is_classifier ctx sid
      · cases has with
        | false =>
          simp only [posLoop, hm, hc, if_pos, if_neg, Bool.false_eq_true,
            ite_false, ite_true] at h
          exact absurd h (by simp [posLoop_snd_true])
        | true =>
          simp only [posLoop, hm, hc, ite_false, ite_true] at h ⊢
          exact ih _ _ h
      · simp only [posLoop, hm, hc, ite_false, ite_true] at h ⊢
        exact ih _ _ h

theorem posLoop_cons_mod (sid : String) (rest : List String) (has : Bool)
    (r : RoleAssignment) (hm : is_modifier ctx sid = true) :
    posLoop ctx (sid :: rest) has r =
      posLoop ctx rest has { r with modifiers := r.modifiers ++ [sid] } := by
  simp [posLoop, hm]

theorem posLoop_cons_newcls (sid : String) (rest : List String)
    (r : RoleAssignment) (hm : is_modifier ctx sid = false)
    (hcl : is_classifier ctx sid = true) :
    posLoop ctx (sid :: rest) false r =
      posLoop ctx rest true { r with classifier := some sid } := by
  simp [posLoop, hm, hcl]

theorem posLoop_cons_oldcls (sid : String) (rest : List String)
    (r : RoleAssignment) (hm : is_modifier ctx sid = false)
    (hcl : is_classifier ctx sid = true) :
    posLoop ctx (sid :: rest) true r =
      posLoop ctx rest true { r with specifiers := r.specifiers ++ [sid] } := by
  simp [posLoop, hm, hcl]

theorem posLoop_cons_default (sid : String) (rest : List String) (has : Bool)
    (r : RoleAssignment) (hm : is_modifier ctx sid = false)
    (hcl : is_classifier ctx sid = false) :
    posLoop ctx (sid :: rest) has r =
      posLoop ctx rest has { r with specifiers := r.specifiers ++ [sid] } := by
  simp [posLoop, hm, hcl]

theorem posLoop_ms (ids : List String) (has : Bool) (r : RoleAssignment)
    (hc : has = false → r.classifier = none) :
    ((roleCat (posLoop ctx ids has r).1 : List String) : Multiset String) =
      (roleCat r : List String) + (ids : List String) := by
  induction ids generalizing has r with
  | nil => simp [posLoop]
  | cons sid rest ih =>
    have hsplit : (sid :: rest : List String) = [sid] ++ rest := rfl
    by_cases hm : is_modifier ctx sid = true
    · rw [posLoop_cons_mod ctx sid rest has r hm,
        ih has { r with modifiers := r.modifiers ++ [sid] } (fun hf => hc hf),
        hsplit]
      simp only [roleCat, ← Multiset.coe_add]
      abel
    · rw [Bool.not_eq_true] at hm
      by_cases hcl : is_classifier ctx sid = true
      · cases has with
        | false =>
          rw [posLoop_cons_newcls ctx sid rest r hm hcl,
            ih true { r with classifier := some sid }
              (fun hf => Bool.noConfusion hf),
            hsplit]
          have hnone := hc rfl
          simp only [roleCat, hnone, Option.toList_some, Option.toList_none,
            ← Multiset.coe_add]
          abel
        | true =>
          rw [posLoop_cons_oldcls ctx sid rest r hm hcl,
            ih true { r with specifiers := r.specifiers ++ [sid] }
              (fun hf => Bool.noConfusion hf),
            hsplit]
          simp only [roleCat, ← Multiset.coe_add]
          abel
      · rw [Bool.not_eq_true] at hcl
        rw [posLoop_cons_default ctx sid rest has r hm hcl,
          ih has { r with specifiers := r.specifiers ++ [sid] } (fun hf => hc hf),
          hsplit]
        simp only [roleCat, ← Multiset.coe_add]
        abel

theorem posLoop_mods_mem (ids : List String) (has : Bool) (r : RoleAssignment)
    (x : String) (hx : x ∈ (posLoop ctx ids has r).1.modifiers) :
    x ∈ r.modifiers ∨ is_modifier ctx x = true := by
  induction ids generalizing has r with
  | nil => simp [posLoop] at hx; exact Or.inl hx
  | cons sid rest ih =>
    by_cases hm : is_modifier ctx sid = true
    · rw [posLoop_cons_mod ctx sid rest has r hm] at hx
      rcases ih has { r with modifiers := r.modifiers ++ [sid] } hx with h | h
      · rcases List.mem_append.mp h with h | h
        · exact Or.inl h
        · simp only [List.mem_singleton] at h; subst h; exact Or.inr hm
      · exact Or.inr h
    · rw [Bool.not_eq_true] at hm
      by_cases hcl : is_classifier ctx sid = true
      · cases has with
        | false =>
          rw [posLoop_cons_newcls ctx sid rest r hm hcl] at hx
          exact ih true { r with classifier := some sid } hx
        | true =>
          rw [posLoop_cons_oldcls ctx sid rest r hm hcl] at hx
          exact ih true { r with specifiers := r.specifiers ++ [sid] } hx
      · rw [Bool.not_eq_true] at hcl
        rw [posLoop_cons_default ctx sid rest has r hm hcl] at hx
        exact ih has { r with specifiers := r.specifiers ++ [sid] } hx

theorem firstIndicatorIdx_lt (ids : List String) (i : Nat)
    (h : firstIndicatorIdx ctx ids = some i) : i < ids.length := by
  induction ids generalizing i with
  | nil => simp [firstIndicatorIdx] at h
  | cons sid rest ih =>
    by_cases hi : is_indicator ctx sid = true
    · simp only [firstIndicatorIdx, hi, if_pos, Option.some.injEq] at h
      subst h
      simp
    · simp only [firstIndicatorIdx, hi, Bool.false_eq_true, ite_false] at h
      rcases Option.map_eq_some'.mp h with ⟨j, hj, rfl⟩
      have := ih j hj
      simp only [List.length_cons]
      omega

theorem firstIndicatorIdx_zero (sid : String) (rest : List String)
    (h : firstIndicatorIdx ctx (sid :: rest) = some 0) :
    is_indicator ctx sid = true := by
  by_cases hi : is_indicator ctx sid = true
  · exact hi
  · simp only [firstIndicatorIdx, hi, Bool.false_eq_true, ite_false] at h
    rcases Option.map_eq_some'.mp h with ⟨j, _, hj⟩
    omega

theorem firstIndicatorIdx_ne_nil (i : Nat)
    (hfi : firstIndicatorIdx ctx [] = some i) : False := by
  simp [firstIndicatorIdx] at hfi

/-- Full characterization of `classify_composition` when rule 1 fires with
the first indicator at a positive position `i`. -/
theorem classify_rule1 (t : List String) (i : Nat)
    (hfi : firstIndicatorIdx ctx (t.filter isDigitStr) = some i) (hi : 0 < i) :
    classify_composition ctx t =
      { classifier := (t.filter isDigitStr)[i - 1]?
        specifiers := ((t.filter isDigitStr).drop i).filter (sufSpec ctx)
        indicators := ((t.filter isDigitStr).drop i).filter (sufInd ctx)
        modifiers := (t.filter isDigitStr).take (i - 1) ++
          ((t.filter isDigitStr).drop i).filter (sufMod ctx)
        errors := [] } := by
  have hne : (t.filter isDigitStr).isEmpty = false := by
    cases hV : t.filter isDigitStr with
    | nil => exact absurd (hV ▸ hfi) (by simp [firstIndicatorIdx])
    | cons a l => simp
  simp only [classify_composition, hne, Bool.false_eq_true, ite_false, hfi, hi,
    if_pos]
  rw [rule1Suffix_eq]
  simp

/-- Characterization of `classify_composition` when no valid id survives. -/
theorem classify_empty (t : List String) (h : t.filter isDigitStr = []) :
    classify_composition ctx t =
      { emptyRoles with errors := ["No valid symbol IDs found in composition"] } := by
  simp [classify_composition, h]

/-- Characterization of `classify_composition` when the first valid id is
itself an indicator (rule 1 with index 0). -/
theorem classify_rule1_zero (t : List String)
    (hfi : firstIndicatorIdx ctx (t.filter isDigitStr) = some 0) :
    classify_composition ctx t =
      { emptyRoles with
          errors := ["First symbol is an indicator; no classifier found before it"] } := by
  have hne : (t.filter isDigitStr).isEmpty = false := by
    cases hV : t.filter isDigitStr with
    | nil => exact absurd (hV ▸ hfi) (by simp [firstIndicatorIdx])
    | cons a l => simp
  simp [classify_composition, hne, hfi]

/-- Characterization of `classify_composition` when no indicator occurs:
the POS walk followed by rule 3. -/
theorem classify_rule23 (t : List String)
    (hne : (t.filter isDigitStr).isEmpty = false)
    (hfi : firstIndicatorIdx ctx (t.filter isDigitStr) = none) :
    classify_composition ctx t =
      rule3Post ctx (t.filter isDigitStr)
        (posLoop ctx (t.filter isDigitStr) false emptyRoles) := by
  simp [classify_composition, hne, hfi]

/-- The three rule-1 suffix predicates partition any list. -/
theorem tripartition_perm (l : List String) :
    (l.filter (sufInd ctx) ++ l.filter (sufMod ctx) ++
      l.filter (sufSpec ctx)).Perm l := by
  induction l with
  | nil => simp
  | cons x l ih =>
    by_cases hi : is_indicator ctx x = true
    · have e1 : sufInd ctx x = true := by simp [sufInd, hi]
      have e2 : sufMod ctx x = false := by simp [sufMod, hi]
      have e3 : sufSpec ctx x = false := by simp [sufSpec, hi]
      simp only [List.filter_cons, e1, e2, e3, if_pos, Bool.false_eq_true,
        ite_false, List.cons_append]
      exact ih.cons x
    · rw [Bool.not_eq_true] at hi
      by_cases hm : is_modifier ctx x = true
      · have e1 : sufInd ctx x = false := by simp [sufInd, hi]
        have e2 : sufMod ctx x = true := by simp [sufMod, hi, hm]
        have e3 : sufSpec ctx x = false := by simp [sufSpec, hi, hm]
        simp only [List.filter_cons, e1, e2, e3, if_pos, Bool.false_eq_true,
          ite_false]
        rw [List.append_assoc, List.cons_append]
        refine List.perm_middle.trans ?_
        rw [← List.append_assoc]
        exact ih.cons x
      · rw [Bool.not_eq_true] at hm
        have e1 : sufInd ctx x = false := by simp [sufInd, hi]
        have e2 : sufMod ctx x = false := by simp [sufMod, hi, hm]
        have e3 : sufSpec ctx x = true := by simp [sufSpec, hi, hm]
        simp only [List.filter_cons, e1, e2, e3, if_pos, Bool.false_eq_true,
          ite_false]
        exact List.perm_middle.trans (ih.cons x)

/-- Under rule 1, the assigned ids are exactly the valid ids, as a multiset. -/
theorem classify_ms_rule1 (t : List String) (i : Nat)
    (hfi : firstIndicatorIdx ctx (t.filter isDigitStr) = some i) (hi : 0 < i) :
    ((roleCat (classify_composition ctx t) : List String) : Multiset String) =
      (t.filter isDigitStr : List String) := by
  have hlt : i < (t.filter isDigitStr).length := firstIndicatorIdx_lt ctx _ i hfi
  have hlt1 : i - 1 < (t.filter isDigitStr).length := by omega
  have hv : (t.filter isDigitStr)[i - 1]? =
      some ((t.filter isDigitStr).get ⟨i - 1, hlt1⟩) :=
    List.getElem?_eq_getElem hlt1
  have h1 : (t.filter isDigitStr).take i =
      (t.filter isDigitStr).take (i - 1) ++ [(t.filter isDigitStr).get ⟨i - 1, hlt1⟩] := by
    have hsucc : i - 1 + 1 = i := by omega
    conv_lhs => rw [← hsucc]
    rw [List.take_succ, hv]
    rfl
  have h2 := (List.take_append_drop i (t.filter isDigitStr)).symm
  have h3 := Multiset.coe_eq_coe.mpr (tripartition_perm ctx ((t.filter isDigitStr).drop i))
  rw [classify_rule1 ctx t i hfi hi]
  simp only [roleCat, hv, Option.toList_some]
  have hV : ((t.filter isDigitStr : List String) : Multiset String) =
      ((t.filter isDigitStr).take (i - 1) : List String) +
        ([(t.filter isDigitStr).get ⟨i - 1, hlt1⟩] : List String) +
        ((t.filter isDigitStr).drop i : List String) := by
    conv_lhs => rw [h2, h1]
    simp only [← Multiset.coe_add]
  rw [hV]
  rw [← h3]
  simp only [← Multiset.coe_add]
  abel

theorem roleCat_update_errors (r : RoleAssignment) (es : List String) :
    roleCat { r with errors := es } = roleCat r := rfl

theorem rule3Post_keep (valid_ids : List String) (p : RoleAssignment × Bool)
    (hp2 : p.2 = true) : rule3Post ctx valid_ids p = p.1 := by
  simp [rule3Post, hp2]

theorem rule3Post_notfound (first : String) (restV : List String)
    (p : RoleAssignment × Bool) (hp2 : p.2 = false)
    (hdg : alistGet ctx.blissDict first = none) :
    rule3Post ctx (first :: restV) p =
      { p.1 with
          errors := p.1.errors ++
            ["Symbol " ++ first ++ " not found in knowledge graph"] } := by
  simp [rule3Post, hp2, hdg]

theorem rule3Post_promote (first : String) (restV : List String)
    (p : RoleAssignment × Bool) (node : SymbolRecord) (hp2 : p.2 = false)
    (hdg : alistGet ctx.blissDict first = some node)
    (hpos : MODIFIER_POS.contains node.pos = true) :
    rule3Post ctx (first :: restV) p =
      { p.1 with
          classifier := some first
          specifiers := p.1.specifiers.filter (fun s => s != first) } := by
  simp only [rule3Post, hp2, Bool.false_eq_true, ite_false, hdg, hpos, ite_true]

theorem rule3Post_nocls (first : String) (restV : List String)
    (p : RoleAssignment × Bool) (node : SymbolRecord) (hp2 : p.2 = false)
    (hdg : alistGet ctx.blissDict first = some node)
    (hpos : MODIFIER_POS.contains node.pos = false) :
    rule3Post ctx (first :: restV) p =
      { p.1 with errors := p.1.errors ++ ["No classifier found in composition"] } := by
  simp only [rule3Post, hp2, Bool.false_eq_true, ite_false, hdg, hpos]

/-- The POS walk started from the empty assignment distributes exactly the
input ids over the buckets, up to permutation. -/
theorem posLoop_run_perm (V : List String) :
    (roleCat (posLoop ctx V false emptyRoles).1).Perm V := by
  have hms := posLoop_ms ctx V false emptyRoles (fun _ => rfl)
  apply Multiset.coe_eq_coe.mp
  rw [hms]
  simp [roleCat, emptyRoles]

/-- Every id placed in a bucket is one of the filtered valid ids. -/
theorem roleCat_mem_valid (t : List String) (x : String)
    (hx : x ∈ roleCat (classify_composition ctx t)) :
    x ∈ t.filter isDigitStr := by
  by_cases hemp : t.filter isDigitStr = []
  · rw [classify_empty ctx t hemp] at hx
    simp [roleCat, emptyRoles] at hx
  · have hne : (t.filter isDigitStr).isEmpty = false := by
      cases hV : t.filter isDigitStr with
      | nil => exact absurd hV hemp
      | cons a l => simp
    cases hfi : firstIndicatorIdx ctx (t.filter isDigitStr) with
    | some i =>
      rcases Nat.eq_zero_or_pos i with rfl | hi
      · rw [classify_rule1_zero ctx t hfi] at hx
        simp [roleCat, emptyRoles] at hx
      · exact (Multiset.coe_eq_coe.mp
          (classify_ms_rule1 ctx t i hfi hi)).subset hx
    | none =>
      rw [classify_rule23 ctx t hne hfi] at hx
      have hperm : (roleCat (posLoop ctx (t.filter isDigitStr) false
          emptyRoles).1).Perm (t.filter isDigitStr) := by
        have hms := posLoop_ms ctx (t.filter isDigitStr) false emptyRoles
          (fun _ => rfl)
        apply Multiset.coe_eq_coe.mp
        rw [hms]
        simp [roleCat, emptyRoles]
      generalize hG : t.filter isDigitStr = V at hx hperm hemp ⊢
      cases V with
      | nil => exact absurd rfl hemp
      | cons first restV =>
        cases hp2 : (posLoop ctx (first :: restV) false emptyRoles).2 with
        | true =>
          rw [rule3Post_keep ctx _ _ hp2] at hx
          exact hperm.subset hx
        | false =>
          cases hdg : alistGet ctx.blissDict first with
          | none =>
            rw [rule3Post_notfound ctx first restV _ hp2 hdg,
              roleCat_update_errors] at hx
            exact hperm.subset hx
          | some node =>
            by_cases hpos : MODIFIER_POS.contains node.pos = true
            · rw [rule3Post_promote ctx first restV _ node hp2 hdg hpos] at hx
              simp only [roleCat, Option.toList_some] at hx
              rcases List.mem_append.mp hx with h123 | h4
              · rcases List.mem_append.mp h123 with h12 | h3
                · rcases List.mem_append.mp h12 with h1 | h2
                  · have hxf : x = first := by simpa using h1
                    subst hxf
                    exact List.mem_cons_self _ _
                  · exact hperm.subset (by simp [roleCat, h2])
                · exact hperm.subset (by simp [roleCat, h3])
              · exact hperm.subset
                  (by simp [roleCat, List.mem_of_mem_filter h4])
            · rw [Bool.not_eq_true] at hpos
              rw [rule3Post_nocls ctx first restV _ node hp2 hdg hpos,
                roleCat_update_errors] at hx
              exact hperm.subset hx

/-- Characterization of the checked-append loop: present ids extend the
composition in order, absent ids produce one warning each, in order. -/
theorem addChecked_eq (d : BlissDict) (kind : String) (ids : List String)
    (r : ComposeResult) :
    addChecked d kind ids r =
      { r with
          composition := r.composition ++ ids.filter (alistHasKey d)
          warnings := r.warnings ++
            (ids.filter (fun i => !alistHasKey d i)).map
              (fun i => kind ++ " " ++ i ++ " not found") } := by
  induction ids generalizing r with
  | nil => simp [addChecked]
  | cons sid rest ih =>
    by_cases hk : alistHasKey d sid = true
    · simp [addChecked, hk, ih, List.filter_cons]
    · rw [Bool.not_eq_true] at hk
      simp [addChecked, hk, ih, List.filter_cons]

/-- `classify_composition` depends on its input only through the filtered
valid-id subsequence. -/
theorem classify_filter_eq (t t' : List String)
    (h : t'.filter isDigitStr = t.filter isDigitStr) :
    classify_composition ctx t' = classify_composition ctx t := by
  simp only [classify_composition, h]

end Lemmas

/-! ## Claim theorems -/

/-- C2: for every filtered id sequence whose first indicator occurs at
position `i > 0`, classification returns the id at `i - 1` as classifier,
the ids at positions `0..i-2` as (prefix) modifiers in order, and sorts
each id from position `i` on into indicators (members of
`INDICATOR_SEMANTICS`), else modifiers (members of `MODIFIER_SEMANTICS`),
else specifiers; no error is recorded and no later rule alters this. -/
theorem C2_indicator_rule (ctx : EngineCtx) (tokens : List String) (i : Nat)
    (hfi : firstIndicatorIdx ctx (tokens.filter isDigitStr) = some i)
    (hi : 0 < i) :
    (classify_composition ctx tokens).classifier =
      (tokens.filter isDigitStr)[i - 1]? ∧
    (classify_composition ctx tokens).modifiers =
      (tokens.filter isDigitStr).take (i - 1) ++
        ((tokens.filter isDigitStr).drop i).filter (sufMod ctx) ∧
    (classify_composition ctx tokens).indicators =
      ((tokens.filter isDigitStr).drop i).filter (sufInd ctx) ∧
    (classify_composition ctx tokens).specifiers =
      ((tokens.filter isDigitStr).drop i).filter (sufSpec ctx) ∧
    (classify_composition ctx tokens).errors = [] := by
  rw [classify_rule1 ctx tokens i hfi hi]
  exact ⟨rfl, rfl, rfl, rfl, rfl⟩

/-- Witness for C2 at the §8 input: the first indicator `9011` is at
position 3, so the classifier is the id at position 2. -/
theorem C2_indicator_rule_witness :
    (classify_composition ctx8 ["14647", "14905", "24920", "9011"]).classifier =
      (["14647", "14905", "24920", "9011"].filter isDigitStr)[3 - 1]? ∧
    (classify_composition ctx8 ["14647", "14905", "24920", "9011"]).modifiers =
      (["14647", "14905", "24920", "9011"].filter isDigitStr).take (3 - 1) ++
        ((["14647", "14905", "24920", "9011"].filter isDigitStr).drop 3).filter
          (sufMod ctx8) ∧
    (classify_composition ctx8 ["14647", "14905", "24920", "9011"]).indicators =
      ((["14647", "14905", "24920", "9011"].filter isDigitStr).drop 3).filter
        (sufInd ctx8) ∧
    (classify_composition ctx8 ["14647", "14905", "24920", "9011"]).specifiers =
      ((["14647", "14905", "24920", "9011"].filter isDigitStr).drop 3).filter
        (sufSpec ctx8) ∧
    (classify_composition ctx8 ["14647", "14905", "24920", "9011"]).errors = [] :=
  C2_indicator_rule ctx8 ["14647", "14905", "24920", "9011"] 3 (by decide)
    (by decide)

/-- C6: inserting any number of non-numeric rendering-marker tokens at
arbitrary positions does not change the computed role assignment, and a
non-numeric marker never appears in any role bucket and never produces an
error (the result, errors included, equals that of the marker-free input). -/
theorem C6_marker_invariance (ctx : EngineCtx) (t tWithMarkers : List String)
    (m : String)
    (hfilter : tWithMarkers.filter isDigitStr = t.filter isDigitStr)
    (hm : isDigitStr m = false) :
    classify_composition ctx tWithMarkers = classify_composition ctx t ∧
    (∀ pre post : List String,
      classify_composition ctx (pre ++ m :: post) =
        classify_composition ctx (pre ++ post)) ∧
    (classify_composition ctx tWithMarkers).classifier ≠ some m ∧
    m ∉ (classify_composition ctx tWithMarkers).specifiers ∧
    m ∉ (classify_composition ctx tWithMarkers).indicators ∧
    m ∉ (classify_composition ctx tWithMarkers).modifiers := by
  have hnotin : m ∉ roleCat (classify_composition ctx tWithMarkers) := by
    intro hmem
    have hval := roleCat_mem_valid ctx tWithMarkers m hmem
    have := List.of_mem_filter hval
    rw [hm] at this
    cases this
  refine ⟨classify_filter_eq ctx t tWithMarkers hfilter, ?_, ?_, ?_, ?_, ?_⟩
  · intro pre post
    apply classify_filter_eq
    simp [List.filter_append, List.filter_cons, hm]
  · intro hcls
    exact hnotin (by simp [roleCat, hcls])
  · intro hmem
    exact hnotin (by simp [roleCat, hmem])
  · intro hmem
    exact hnotin (by simp [roleCat, hmem])
  · intro hmem
    exact hnotin (by simp [roleCat, hmem])

/-- Witness for C6 at the §8 input with the rendering markers of the
tests of the repository inserted. -/
theorem C6_marker_invariance_witness :
    classify_composition ctx8 ["14647", "/", "14905", ";", "24920", "/", "9011"] =
      classify_composition ctx8 ["14647", "14905", "24920", "9011"] ∧
    (∀ pre post : List String,
      classify_composition ctx8 (pre ++ "/" :: post) =
        classify_composition ctx8 (pre ++ post)) ∧
    (classify_composition ctx8
      ["14647", "/", "14905", ";", "24920", "/", "9011"]).classifier ≠ some "/" ∧
    "/" ∉ (classify_composition ctx8
      ["14647", "/", "14905", ";", "24920", "/", "9011"]).specifiers ∧
    "/" ∉ (classify_composition ctx8
      ["14647", "/", "14905", ";", "24920", "/", "9011"]).indicators ∧
    "/" ∉ (classify_composition ctx8
      ["14647", "/", "14905", ";", "24920", "/", "9011"]).modifiers :=
  C6_marker_invariance ctx8 ["14647", "14905", "24920", "9011"]
    ["14647", "/", "14905", ";", "24920", "/", "9011"] "/" (by decide) (by decide)

/-- C3 fails as stated: in `ctxC3` the input `["77"]` is classified with
`77` both as the classifier and as a member of `modifiers`, so an id can
appear in two buckets and the union of the buckets (as a multiset,
`["77", "77"]`) is not the filtered input subsequence `["77"]`. -/
theorem C3_role_partition_counterexample :
    (classify_composition ctxC3 ["77"]).classifier = some "77" ∧
    "77" ∈ (classify_composition ctxC3 ["77"]).modifiers ∧
    roleCat (classify_composition ctxC3 ["77"]) = ["77", "77"] ∧
    ["77"].filter isDigitStr = ["77"] := by
  decide

/-- C3 (amended): the role partition holds provided the filtered valid ids
are duplicate-free, the first valid id is not an indicator, and the run is
not the all-satellite fallback promoting a `MODIFIER_SEMANTICS` member:
then the classifier and the three lists are a permutation of the filtered
valid-id subsequence (multiset equality) and, being duplicate-free
altogether, pairwise disjoint with each id in at most one bucket. -/
theorem C3_role_partition (ctx : EngineCtx) (tokens : List String)
    (hnd : (tokens.filter isDigitStr).Nodup)
    (hhead : (tokens.filter isDigitStr).head?.all
      (fun h => !is_indicator ctx h) = true)
    (hpromo : rule3PromotesModifier ctx (tokens.filter isDigitStr) = false) :
    (roleCat (classify_composition ctx tokens)).Perm
      (tokens.filter isDigitStr) ∧
    (roleCat (classify_composition ctx tokens)).Nodup := by
  suffices hperm : (roleCat (classify_composition ctx tokens)).Perm
      (tokens.filter isDigitStr) by
    exact ⟨hperm, hperm.nodup_iff.mpr hnd⟩
  by_cases hemp : tokens.filter isDigitStr = []
  · rw [classify_empty ctx tokens hemp, hemp]
    exact List.Perm.nil
  · have hne : (tokens.filter isDigitStr).isEmpty = false := by
      cases h : tokens.filter isDigitStr with
      | nil => exact absurd h hemp
      | cons a l => simp
    cases hfi : firstIndicatorIdx ctx (tokens.filter isDigitStr) with
    | some i =>
      rcases Nat.eq_zero_or_pos i with rfl | hi
      · exfalso
        cases hV : tokens.filter isDigitStr with
        | nil => exact hemp hV
        | cons h t2 =>
          have hind := firstIndicatorIdx_zero ctx h t2 (hV ▸ hfi)
          rw [hV] at hhead
          simp [hind] at hhead
      · exact Multiset.coe_eq_coe.mp (classify_ms_rule1 ctx tokens i hfi hi)
    | none =>
      rw [classify_rule23 ctx tokens hne hfi]
      have hperm0 := posLoop_run_perm ctx (tokens.filter isDigitStr)
      cases hp2 : (posLoop ctx (tokens.filter isDigitStr) false emptyRoles).2 with
      | true =>
        rw [rule3Post_keep ctx _ _ hp2]
        exact hperm0
      | false =>
        cases hV : tokens.filter isDigitStr with
        | nil => exact absurd hV hemp
        | cons first restV =>
          simp only [hV] at hperm0 hp2 hpromo hnd hfi ⊢
          cases hdg : alistGet ctx.blissDict first with
          | none =>
            rw [rule3Post_notfound ctx first restV _ hp2 hdg,
              roleCat_update_errors]
            exact hperm0
          | some node =>
            by_cases hpos : MODIFIER_POS.contains node.pos = true
            · have hmodf : is_modifier ctx first = false := by
                by_contra hmm
                rw [Bool.not_eq_false] at hmm
                simp [rule3PromotesModifier, hfi, hp2, hdg, hpos, hmm] at hpromo
                exact hpromo (by simpa using hpos)
              rw [rule3Post_promote ctx first restV _ node hp2 hdg hpos]
              have hclsnone :
                  (posLoop ctx (first :: restV) false emptyRoles).1.classifier =
                    none := by
                have h := posLoop_classifier_of_snd_false ctx (first :: restV)
                  false emptyRoles hp2
                simpa [emptyRoles] using h
              have hinds :
                  (posLoop ctx (first :: restV) false emptyRoles).1.indicators =
                    [] := by
                have h := posLoop_indicators ctx (first :: restV) false emptyRoles
                simpa [emptyRoles] using h
              have hfirstmem : first ∈
                  roleCat (posLoop ctx (first :: restV) false emptyRoles).1 :=
                hperm0.symm.subset (List.mem_cons_self _ _)
              have hfirstnotmods : first ∉
                  (posLoop ctx (first :: restV) false emptyRoles).1.modifiers := by
                intro hmem
                rcases posLoop_mods_mem ctx (first :: restV) false emptyRoles
                  first hmem with h | h
                · simp [emptyRoles] at h
                · rw [hmodf] at h
                  cases h
              have hfirstspecs : first ∈
                  (posLoop ctx (first :: restV) false emptyRoles).1.specifiers := by
                have hmem2 : first ∈
                    (posLoop ctx (first :: restV) false emptyRoles).1.modifiers ++
                      (posLoop ctx (first :: restV) false emptyRoles).1.specifiers := by
                  have h := hfirstmem
                  simp only [roleCat, hclsnone, hinds, Option.toList_none,
                    List.nil_append, List.append_nil] at h
                  exact h
                rcases List.mem_append.mp hmem2 with h | h
                · exact absurd h hfirstnotmods
                · exact h
              have hnodupcat :
                  (roleCat (posLoop ctx (first :: restV) false emptyRoles).1).Nodup :=
                hperm0.nodup_iff.mpr hnd
              have hnodupspecs :
                  (posLoop ctx (first :: restV) false emptyRoles).1.specifiers.Nodup := by
                rw [roleCat] at hnodupcat
                exact hnodupcat.of_append_right
              have herase :
                  (posLoop ctx (first :: restV) false emptyRoles).1.specifiers.filter
                      (fun s => s != first) =
                    (posLoop ctx (first :: restV) false emptyRoles).1.specifiers.erase
                      first :=
                (hnodupspecs.erase_eq_filter first).symm
              have hspecsperm :
                  (posLoop ctx (first :: restV) false emptyRoles).1.specifiers.Perm
                    (first :: (posLoop ctx (first :: restV) false
                      emptyRoles).1.specifiers.erase first) :=
                List.perm_cons_erase hfirstspecs
              apply Multiset.coe_eq_coe.mp
              have hms0 := Multiset.coe_eq_coe.mpr hperm0
              have hms1 :
                  ((posLoop ctx (first :: restV) false emptyRoles).1.modifiers :
                      Multiset String) +
                    ((posLoop ctx (first :: restV) false emptyRoles).1.specifiers :
                      List String) =
                    ((first :: restV : List String) : Multiset String) := by
                rw [← hms0]
                simp only [roleCat, hclsnone, hinds, Option.toList_none,
                  List.nil_append, List.append_nil, ← Multiset.coe_add]
              have hms2 :
                  (((posLoop ctx (first :: restV) false emptyRoles).1.specifiers :
                      List String) : Multiset String) =
                    ([first] : List String) +
                      ((posLoop ctx (first :: restV) false
                        emptyRoles).1.specifiers.erase first : List String) := by
                rw [Multiset.coe_eq_coe.mpr hspecsperm]
                rw [show (first :: (posLoop ctx (first :: restV) false
                    emptyRoles).1.specifiers.erase first) =
                  [first] ++ (posLoop ctx (first :: restV) false
                    emptyRoles).1.specifiers.erase first from rfl]
                simp only [← Multiset.coe_add]
              have hgoal :
                  ((roleCat
                    { (posLoop ctx (first :: restV) false emptyRoles).1 with
                        classifier := some first
                        specifiers := (posLoop ctx (first :: restV) false
                          emptyRoles).1.specifiers.filter (fun s => s != first) } :
                    List String) : Multiset String) =
                  ([first] : List String) +
                    ((posLoop ctx (first :: restV) false emptyRoles).1.modifiers :
                      List String) +
                    ((posLoop ctx (first :: restV) false
                      emptyRoles).1.specifiers.erase first : List String) := by
                simp only [roleCat, hinds, herase, Option.toList_some,
                  List.append_nil, ← Multiset.coe_add]
              rw [hgoal, ← hms1, hms2]
              abel
            · rw [Bool.not_eq_true] at hpos
              rw [rule3Post_nocls ctx first restV _ node hp2 hdg hpos,
                roleCat_update_errors]
              exact hperm0

/-- Witness for C3 (amended) at the §8 input: duplicate-free ids, the first
id is not an indicator, and rule 1 applies, so the partition holds. -/
theorem C3_role_partition_witness :
    (roleCat (classify_composition ctx8 ["14647", "14905", "24920", "9011"])).Perm
      (["14647", "14905", "24920", "9011"].filter isDigitStr) ∧
    (roleCat (classify_composition ctx8 ["14647", "14905", "24920", "9011"])).Nodup :=
  C3_role_partition ctx8 ["14647", "14905", "24920", "9011"] (by decide)
    (by decide) (by decide)

/-- C1: evaluating the embedded classifier at the §8 input
`["14647", "14905", "24920", "9011"]` (with the §8 semantic tables) shows
the code returning classifier `"24920"` — the id immediately before the
first indicator — with modifiers `["14647", "14905"]` and no specifiers,
not the classifier `"14905"`, modifiers `["14647"]`, specifiers
`["24920"]` stated by the claim and by the docstring of the engine facade. -/
theorem C1_eval_concrete_input :
    classify_composition ctx8 ["14647", "14905", "24920", "9011"] =
      { classifier := some "24920"
        specifiers := []
        indicators := ["9011"]
        modifiers := ["14647", "14905"]
        errors := [] } := by
  decide

/-- C4 fails as stated: with classifier `99` absent from the dictionary and
the modifier `14647` supplied, the call does fail with the NotFound error,
yet the returned composition is `["14647"]`, not empty — the modifiers are
appended before the classifier check. -/
theorem C4_missing_classifier_counterexample :
    (compose_with_modifiers dict8 "99" [] ["14647"] []).fatalError =
      some "Classifier 99 not found" ∧
    (compose_with_modifiers dict8 "99" [] ["14647"] []).composition = ["14647"] ∧
    (compose_with_modifiers dict8 "99" [] ["14647"] []).composition ≠ [] := by
  decide

/-- C4 (amended): when the classifier id is absent from the dictionary the
operation fails with the NotFound error and returns immediately — no
classifier, specifier or indicator id is added and no warning for them is
produced — but the modifier loop has already run: the returned composition
is exactly the supplied modifier ids present in the dictionary, with one
warning per absent modifier. -/
theorem C4_missing_classifier (d : BlissDict) (classifier_id : String)
    (specifier_ids modifier_ids indicator_ids : List String)
    (hcls : alistHasKey d classifier_id = false) :
    compose_with_modifiers d classifier_id specifier_ids modifier_ids
        indicator_ids =
      { composition := modifier_ids.filter (alistHasKey d)
        errors := []
        warnings := (modifier_ids.filter (fun i => !alistHasKey d i)).map
          (fun i => "Modifier " ++ i ++ " not found")
        fatalError := some ("Classifier " ++ classifier_id ++ " not found") } := by
  simp only [compose_with_modifiers, hcls, Bool.false_eq_true, ite_false]
  rw [addChecked_eq]
  simp

/-- Witness for C4 (amended) at the counterexample input. -/
theorem C4_missing_classifier_witness :
    compose_with_modifiers dict8 "99" [] ["14647"] [] =
      { composition := ["14647"].filter (alistHasKey dict8)
        errors := []
        warnings := (["14647"].filter (fun i => !alistHasKey dict8 i)).map
          (fun i => "Modifier " ++ i ++ " not found")
        fatalError := some ("Classifier " ++ "99" ++ " not found") } :=
  C4_missing_classifier dict8 "99" [] ["14647"] [] (by decide)

/-- C5: evaluating the round trip at the §8 ids (classifier `14905`,
specifier `24920`, modifier `14647`, indicator `9011`, all present in the
dictionary, with `14647 ∈ MODIFIER_SEMANTICS` and
`9011 ∈ INDICATOR_SEMANTICS`): composing yields
`["14647", "14905", "24920", "9011"]`, but classifying that composition
returns classifier `"24920"` — the supplied specifier — not `"14905"`,
and the specifier bucket is empty, so the round trip does not recover the
roles. -/
theorem C5_round_trip_eval :
    (compose_with_modifiers dict8 "14905" ["24920"] ["14647"] ["9011"]).composition =
      ["14647", "14905", "24920", "9011"] ∧
    (classify_composition ctx8
      (compose_with_modifiers dict8 "14905" ["24920"] ["14647"]
        ["9011"]).composition).classifier = some "24920" ∧
    (classify_composition ctx8
      (compose_with_modifiers dict8 "14905" ["24920"] ["14647"]
        ["9011"]).composition).specifiers = [] ∧
    some "24920" ≠ some "14905" := by
  decide

/-- C7: when the classifier id is present in the dictionary, the returned
composition is exactly: the supplied modifier ids present in the
dictionary (in order), then the classifier, then the present specifier
ids, then the present indicator ids; each absent non-classifier id is
dropped and produces exactly one warning, and no error is recorded. -/
theorem C7_compose_output_order (d : BlissDict) (classifier_id : String)
    (specifier_ids modifier_ids indicator_ids : List String)
    (hcls : alistHasKey d classifier_id = true) :
    compose_with_modifiers d classifier_id specifier_ids modifier_ids
        indicator_ids =
      { composition := modifier_ids.filter (alistHasKey d) ++ [classifier_id] ++
          specifier_ids.filter (alistHasKey d) ++
          indicator_ids.filter (alistHasKey d)
        errors := []
        warnings :=
          (modifier_ids.filter (fun i => !alistHasKey d i)).map
            (fun i => "Modifier " ++ i ++ " not found") ++
          (specifier_ids.filter (fun i => !alistHasKey d i)).map
            (fun i => "Specifier " ++ i ++ " not found") ++
          (indicator_ids.filter (fun i => !alistHasKey d i)).map
            (fun i => "Indicator " ++ i ++ " not found")
        fatalError := none } := by
  simp only [compose_with_modifiers, hcls, ite_true]
  rw [addChecked_eq, addChecked_eq, addChecked_eq]
  simp [List.append_assoc]

/-- Witness for C7 at the §8 dictionary with one absent specifier id. -/
theorem C7_compose_output_order_witness :
    compose_with_modifiers dict8 "14905" ["24920", "404"] ["14647"] ["9011"] =
      { composition := ["14647"].filter (alistHasKey dict8) ++ ["14905"] ++
          (["24920", "404"].filter (alistHasKey dict8)) ++
          (["9011"].filter (alistHasKey dict8))
        errors := []
        warnings :=
          (["14647"].filter (fun i => !alistHasKey dict8 i)).map
            (fun i => "Modifier " ++ i ++ " not found") ++
          ((["24920", "404"].filter (fun i => !alistHasKey dict8 i)).map
            (fun i => "Specifier " ++ i ++ " not found")) ++
          ((["9011"].filter (fun i => !alistHasKey dict8 i)).map
            (fun i => "Indicator " ++ i ++ " not found"))
        fatalError := none } :=
  C7_compose_output_order dict8 "14905" ["24920", "404"] ["14647"] ["9011"]
    (by decide)

/-- Every extracted semantic fact is tagged with the id it was extracted
from. -/
theorem extract_srcId (ctx : EngineCtx) (x role : String) (f : SemanticFact)
    (h : extract_semantics ctx x role = some f) : f.srcId = x := by
  simp only [extract_semantics] at h
  cases halist : alistGet
      (if role = "indicator" then ctx.INDICATOR_SEMANTICS
       else ctx.MODIFIER_SEMANTICS) x with
  | none =>
    simp only [halist] at h
    exact Option.noConfusion h
  | some info =>
    simp only [halist] at h
    cases ho : info.orAlternatives with
    | some alts =>
      simp only [ho] at h
      injection h with h2
      subst h2
      rfl
    | none =>
      simp only [ho] at h
      cases ha : info.andCombination with
      | some parts =>
        simp only [ha] at h
        injection h with h2
        subst h2
        rfl
      | none =>
        simp only [ha] at h
        cases hty : info.typeKey with
        | none =>
          cases hv : info.valueKey with
          | none => simp only [hty, hv] at h; exact Option.noConfusion h
          | some v => simp only [hty, hv] at h; exact Option.noConfusion h
        | some ty =>
          cases hv : info.valueKey with
          | none => simp only [hty, hv] at h; exact Option.noConfusion h
          | some v =>
            simp only [hty, hv] at h
            injection h with h2
            subst h2
            rfl

/-- C9: whenever classification of a composition records at least one
error, `analyze_composition` returns only the failure result carrying the
first classification error (with the raw classification as details); no
top-level classifier, specifier, indicator, modifier or semantics output
is produced. -/
theorem C9_analyze_error_short_circuit (ctx : EngineCtx)
    (composition : List String) (language e : String) (rest : List String)
    (herr : (classify_composition ctx composition).errors = e :: rest) :
    analyze_composition ctx composition language =
      .failure e (classify_composition ctx composition) := by
  simp only [analyze_composition, herr]

/-- Witness for C9: the empty composition classifies with the
no-valid-ids error, and analysis returns only that error. -/
theorem C9_analyze_error_short_circuit_witness :
    analyze_composition ctx8 [] "en" =
      .failure "No valid symbol IDs found in composition"
        (classify_composition ctx8 []) :=
  C9_analyze_error_short_circuit ctx8 [] "en"
    "No valid symbol IDs found in composition" [] (by decide)

/-- C10: if the entry of an id in the indicator/modifier semantic tables
(wherever the id occurs) matches none of the three expected shapes (no
`"or"` key, no `"and"` key, not both `"type"` and `"value"`), semantic
extraction returns `none` for both roles, and no semantic fact tagged with
the id occurs in any successful analysis output — silently, with no
warning or error. -/
theorem C10_malformed_semantics (ctx : EngineCtx) (symbol_id : String)
    (hbad : ((alistGet ctx.INDICATOR_SEMANTICS symbol_id).all badShape &&
      (alistGet ctx.MODIFIER_SEMANTICS symbol_id).all badShape) = true) :
    extract_semantics ctx symbol_id "indicator" = none ∧
    extract_semantics ctx symbol_id "modifier" = none ∧
    ∀ (composition : List String) (language : String) (a : Analysis),
      analyze_composition ctx composition language = .success a →
      ∀ f ∈ a.semantics, f.srcId ≠ symbol_id := by
  rw [Bool.and_eq_true] at hbad
  obtain ⟨hbi, hbm⟩ := hbad
  have hIND : extract_semantics ctx symbol_id "indicator" = none := by
    simp only [extract_semantics, ite_true]
    cases halist : alistGet ctx.INDICATOR_SEMANTICS symbol_id with
    | none => rfl
    | some info =>
      rw [halist, Option.all_some] at hbi
      simp only [badShape, Bool.and_eq_true, Bool.not_eq_true'] at hbi
      obtain ⟨⟨ho, ha⟩, htv⟩ := hbi
      rw [Option.isNone_iff_eq_none] at ho ha
      simp only [ho, ha]
      cases hty : info.typeKey with
      | none => rfl
      | some ty =>
        cases hv : info.valueKey with
        | none => rfl
        | some v =>
          rw [hty, hv] at htv
          simp at htv
  have hMOD : extract_semantics ctx symbol_id "modifier" = none := by
    simp only [extract_semantics]
    rw [if_neg (by decide)]
    cases halist : alistGet ctx.MODIFIER_SEMANTICS symbol_id with
    | none => rfl
    | some info =>
      rw [halist, Option.all_some] at hbm
      simp only [badShape, Bool.and_eq_true, Bool.not_eq_true'] at hbm
      obtain ⟨⟨ho, ha⟩, htv⟩ := hbm
      rw [Option.isNone_iff_eq_none] at ho ha
      simp only [ho, ha]
      cases hty : info.typeKey with
      | none => rfl
      | some ty =>
        cases hv : info.valueKey with
        | none => rfl
        | some v =>
          rw [hty, hv] at htv
          simp at htv
  refine ⟨hIND, hMOD, ?_⟩
  intro composition language a hsucc f hf hfid
  cases herr : (classify_composition ctx composition).errors with
  | cons e rest =>
    rw [C9_analyze_error_short_circuit ctx composition language e rest herr]
      at hsucc
    exact AnalysisOutcome.noConfusion hsucc
  | nil =>
    simp only [analyze_composition, herr] at hsucc
    injection hsucc with hrec
    have hsem : a.semantics =
        (classify_composition ctx composition).indicators.filterMap
          (fun i => extract_semantics ctx i "indicator") ++
        (classify_composition ctx composition).modifiers.filterMap
          (fun m => extract_semantics ctx m "modifier") := by
      rw [← hrec]
    rw [hsem] at hf
    rcases List.mem_append.mp hf with hmem | hmem
    · rcases List.mem_filterMap.mp hmem with ⟨x, _, hex⟩
      have hsrc := extract_srcId ctx x "indicator" f hex
      have hxs : x = symbol_id := by rw [← hsrc, hfid]
      rw [hxs, hIND] at hex
      exact Option.noConfusion hex
    · rcases List.mem_filterMap.mp hmem with ⟨x, _, hex⟩
      have hsrc := extract_srcId ctx x "modifier" f hex
      have hxs : x = symbol_id := by rw [← hsrc, hfid]
      rw [hxs, hMOD] at hex
      exact Option.noConfusion hex

/-- With duplicate-free keys, association-list lookup finds each entry. -/
theorem alistGet_of_mem_nodup {α : Type} (d : List (String × α)) (nid : String)
    (node : α) (hnd : (d.map Prod.fst).Nodup) (hmem : (nid, node) ∈ d) :
    alistGet d nid = some node := by
  induction d with
  | nil => cases hmem
  | cons p rest ih =>
    rcases List.mem_cons.mp hmem with heq | hmem'
    · rw [← heq]
      simp [alistGet]
    · have hkeys : p.1 ∉ rest.map Prod.fst ∧ (rest.map Prod.fst).Nodup := by
        rw [List.map_cons, List.nodup_cons] at hnd
        exact hnd
      have hne : p.1 ≠ nid := by
        intro he
        exact hkeys.1 (he ▸ List.mem_map_of_mem Prod.fst hmem')
      simp only [alistGet, hne, ite_false]
      exact ih hkeys.2 hmem'

/-- The gloss-collision step is idempotent once the character flag the
indexing symbol itself has is what the dictionary reports for it. -/
theorem glossStepVal_idem (d : BlissDict) (nid : String) (node : SymbolRecord)
    (hchar : isCharacterOf d nid = node.isCharacter) (o : Option String) :
    glossStepVal d nid node (glossStepVal d nid node o) =
      glossStepVal d nid node o := by
  cases o with
  | none => simp [glossStepVal, hchar]
  | some e =>
    simp only [glossStepVal]
    by_cases hc : (node.isCharacter && !isCharacterOf d e) = true
    · rw [if_pos hc]
      simp [glossStepVal, hchar]
    · rw [if_neg hc]
      simp only [glossStepVal]
      rw [if_neg hc]

/-- Pointwise behaviour of the gloss indexing of one node at a fixed gloss. -/
theorem glossInsert_at (d : BlissDict) (nid : String) (node : SymbolRecord)
    (hchar : isCharacterOf d nid = node.isCharacter) (m : GlossMap)
    (g : String) :
    glossInsert d nid node m g =
      if (enGlosses node).contains g then glossStepVal d nid node (m g)
      else m g := by
  unfold glossInsert
  have idem := glossStepVal_idem d nid node hchar
  generalize enGlosses node = L
  induction L generalizing m with
  | nil => simp
  | cons x rest ih =>
    simp only [List.foldl_cons]
    rw [ih]
    by_cases hxg : g = x
    · subst hxg
      have hstep :
          (match m g with
           | none => mapInsert m g nid
           | some existing_id =>
             if node.isCharacter && !isCharacterOf d existing_id then
               mapInsert m g nid
             else m) g = glossStepVal d nid node (m g) := by
        cases hm : m g with
        | none => simp [mapInsert, glossStepVal]
        | some e =>
          simp only [glossStepVal]
          by_cases hc : (node.isCharacter && !isCharacterOf d e) = true
          · simp [hc, mapInsert]
          · simp [hc, hm]
      rw [hstep]
      have hcontT : (g :: rest).contains g = true :=
        List.elem_eq_true_of_mem (List.mem_cons_self _ _)
      rw [hcontT]
      by_cases hrc : rest.contains g = true
      · rw [hrc]
        simp only [ite_true, idem]
      · rw [Bool.not_eq_true] at hrc
        rw [hrc]
        simp only [ite_true, Bool.false_eq_true, ite_false]
    · have hstep :
          (match m x with
           | none => mapInsert m x nid
           | some existing_id =>
             if node.isCharacter && !isCharacterOf d existing_id then
               mapInsert m x nid
             else m) g = m g := by
        cases hm : m x with
        | none => simp [mapInsert, hxg]
        | some e =>
          by_cases hc : (node.isCharacter && !isCharacterOf d e) = true
          · simp [hc, mapInsert, hxg]
          · simp [hc]
      rw [hstep]
      have hcc : (x :: rest).contains g = rest.contains g := by
        rw [List.contains_cons, beq_eq_false_iff_ne.mpr hxg]
        simp
      rw [hcc]

/-- Evaluating the whole gloss-index fold at one gloss reduces to an
`Option`-valued fold of the collision step. -/
theorem glossFold_point (d : BlissDict) (l : List (String × SymbolRecord))
    (m : GlossMap) (g : String)
    (hcharAll : ∀ p ∈ l, isCharacterOf d p.1 = p.2.isCharacter) :
    (l.foldl (fun m p => glossInsert d p.1 p.2 m) m) g =
      l.foldl
        (fun o p =>
          if (enGlosses p.2).contains g then glossStepVal d p.1 p.2 o else o)
        (m g) := by
  induction l generalizing m with
  | nil => rfl
  | cons p rest ih =>
    simp only [List.foldl_cons]
    rw [ih (glossInsert d p.1 p.2 m)
      (fun q hq => hcharAll q (List.mem_cons_of_mem p hq)),
      glossInsert_at d p.1 p.2 (hcharAll p (List.mem_cons_self p rest)) m g]

/-- The `Option`-valued gloss fold resolves to the unique character
carrying the gloss: `some a` absorbs, and every other writer for the gloss
is displaced by the character `a` when it is reached. -/
theorem glossOptFold_eq (d : BlissDict) (g a : String) (ra : SymbolRecord)
    (hnd : (d.map Prod.fst).Nodup)
    (hma : (a, ra) ∈ d) (hca : ra.isCharacter = true) (hga : g ∈ enGlosses ra)
    (huniq : ∀ p ∈ d, g ∈ enGlosses p.2 → p.2.isCharacter = true → p.1 = a)
    (l : List (String × SymbolRecord)) (hsub : ∀ p ∈ l, p ∈ d)
    (o : Option String)
    (ho : ((a, ra) ∈ l ∧
        (o = none ∨ ∃ e re, o = some e ∧ (e, re) ∈ d ∧ g ∈ enGlosses re)) ∨
      o = some a) :
    l.foldl
      (fun o p =>
        if (enGlosses p.2).contains g then glossStepVal d p.1 p.2 o else o)
      o = some a := by
  induction l generalizing o with
  | nil =>
    rcases ho with ⟨hmem, _⟩ | rfl
    · cases hmem
    · rfl
  | cons p rest ih =>
    simp only [List.foldl_cons]
    have hchA : isCharacterOf d a = true := by
      unfold isCharacterOf
      rw [alistGet_of_mem_nodup d a ra hnd hma]
      exact hca
    rcases ho with ⟨hal, hinv⟩ | rfl
    · rcases List.mem_cons.mp hal with heq | hal'
      · refine ih (fun q hq => hsub q (List.mem_cons_of_mem p hq)) _ (Or.inr ?_)
        rw [← heq]
        have hcont : (enGlosses ra).contains g = true :=
          List.elem_eq_true_of_mem hga
        rw [hcont]
        simp only [ite_true]
        rcases hinv with rfl | ⟨e, re, rfl, hmem, hgre⟩
        · rfl
        · simp only [glossStepVal]
          by_cases hce : re.isCharacter = true
          · have hea : e = a := huniq (e, re) hmem hgre hce
            subst hea
            by_cases hcnd : (ra.isCharacter && !isCharacterOf d e) = true
            · rw [if_pos hcnd]
            · rw [if_neg hcnd]
          · have hcefalse : isCharacterOf d e = false := by
              unfold isCharacterOf
              rw [alistGet_of_mem_nodup d e re hnd hmem]
              exact Bool.not_eq_true re.isCharacter ▸ hce
            rw [if_pos (by rw [hca, hcefalse]; rfl)]
      · refine ih (fun q hq => hsub q (List.mem_cons_of_mem p hq)) _ (Or.inl ⟨hal', ?_⟩)
        by_cases hcont : (enGlosses p.2).contains g = true
        · rw [hcont]
          simp only [ite_true]
          have hpmem : (p.1, p.2) ∈ d := by
            have := hsub p (List.mem_cons_self p rest)
            simpa using this
          have hgp : g ∈ enGlosses p.2 := List.mem_of_elem_eq_true hcont
          rcases hinv with rfl | ⟨e, re, rfl, hmem, hgre⟩
          · exact Or.inr ⟨p.1, p.2, rfl, hpmem, hgp⟩
          · simp only [glossStepVal]
            by_cases hc : (p.2.isCharacter && !isCharacterOf d e) = true
            · rw [if_pos hc]
              exact Or.inr ⟨p.1, p.2, rfl, hpmem, hgp⟩
            · rw [if_neg hc]
              exact Or.inr ⟨e, re, rfl, hmem, hgre⟩
        · rw [Bool.not_eq_true] at hcont
          rw [hcont]
          simp only [Bool.false_eq_true, ite_false]
          exact hinv
    · refine ih (fun q hq => hsub q (List.mem_cons_of_mem p hq)) _ (Or.inr ?_)
      by_cases hcont : (enGlosses p.2).contains g = true
      · rw [hcont]
        simp only [ite_true, glossStepVal]
        rw [hchA]
        simp
      · rw [Bool.not_eq_true] at hcont
        rw [hcont]
        simp

/-- C8: in any dictionary with duplicate-free ids in which the character
`a` and the composed word `b` share the English gloss `g` — `a` being the
only character carrying `g` — `find_symbol_by_gloss` resolves `g` to the
id `a` of the character, regardless of where the two symbols sit in the
iteration/insertion order. -/
theorem C8_gloss_preference (d : BlissDict) (g a b : String)
    (ra rb : SymbolRecord)
    (hnd : (d.map Prod.fst).Nodup)
    (hma : (a, ra) ∈ d) (hca : ra.isCharacter = true) (hga : g ∈ enGlosses ra)
    (hmb : (b, rb) ∈ d) (hcb : rb.isCharacter = false) (hgb : g ∈ enGlosses rb)
    (huniq : ∀ p ∈ d, g ∈ enGlosses p.2 → p.2.isCharacter = true → p.1 = a) :
    find_symbol_by_gloss d g = some a := by
  have hcharAll : ∀ p ∈ d, isCharacterOf d p.1 = p.2.isCharacter := by
    intro p hp
    unfold isCharacterOf
    rw [alistGet_of_mem_nodup d p.1 p.2 hnd (by simpa using hp)]
  have hgid : gloss_to_id d g = some a := by
    unfold gloss_to_id
    rw [glossFold_point d d (fun _ => none) g hcharAll]
    exact glossOptFold_eq d g a ra hnd hma hca hga huniq d (fun p hp => hp)
      none (Or.inl ⟨hma, Or.inl rfl⟩)
  simp [find_symbol_by_gloss, hgid]

/-- Witness for C8: in `dictC8` the composed word `100` is indexed before
the character `200`, both glossed `water`; lookup resolves to `200`. -/
theorem C8_gloss_preference_witness :
    find_symbol_by_gloss dictC8 "water" = some "200" :=
  C8_gloss_preference dictC8 "water" "200" "100"
    ⟨"BLUE", true, [("en", ["water"])], ""⟩
    ⟨"YELLOW", false, [("en", ["water"])], ""⟩
    (by decide) (by decide) (by decide) (by decide) (by decide) (by decide)
    (by decide) (by decide)

/-- Witness for C10: in `ctxC10` the id `7` carries an indicator-table
entry with only a `"type"` key; extraction yields `none` for both roles
and no analysis tags a fact with `7`. -/
theorem C10_malformed_semantics_witness :
    extract_semantics ctxC10 "7" "indicator" = none ∧
    extract_semantics ctxC10 "7" "modifier" = none ∧
    ∀ (composition : List String) (language : String) (a : Analysis),
      analyze_composition ctxC10 composition language = .success a →
      ∀ f ∈ a.semantics, f.srcId ≠ "7" :=
  C10_malformed_semantics ctxC10 "7" (by decide)

end BlissBot

